import Mathlib

/-!
Verification development for the ICNARC-to-Philips linkage pipeline
(`clean_encounterids.py` and `parse_ICNARC_xml.py`).

The pipeline is shallowly embedded: a pandas cell is a `Val` (integer,
string, or missing/NaN); a pandas column that may hold a stored Series
object is a `Cell`; dataframes are lists of typed row structures whose
fields are the columns the pipeline reads.  Pandas-specific semantics
are modelled explicitly where they matter:

* elementwise comparison (`==`, `!=`) treats NaN as unequal to
  everything (`pdEq`, `pdNe`);
* `x in series` membership tests the series INDEX labels, not its
  values (`clean_icnarc_cis_ids` below carries index labels);
* `merge` join keys match NaN with NaN (plain decidable equality);
* `groupby(sort=True)` sorts group keys ascending and drops null keys;
* aggregations `first`/`last` skip nulls, `min`/`max` skip nulls,
  `sum` skips nulls and returns 0 for an all-null group;
* `astype(int)` fails on nulls and non-numeric strings.
-/

/-- A pandas scalar cell value: integer, string, or missing (NaN/None). -/
inductive Val where
  | int : Int → Val
  | str : String → Val
  | null : Val
deriving DecidableEq

/-- A cell of an object column: usually a scalar, but python code can also
store a whole pandas Series object into a cell (as `clean_icnarc_cis_ids`
does on its corrected branch). -/
inductive Cell where
  | val : Val → Cell
  | series : List Val → Cell
deriving DecidableEq

/-- Pandas elementwise equality: NaN compares unequal to everything,
including another NaN. -/
def pdEq (a b : Val) : Bool :=
  if a = Val.null ∨ b = Val.null then false else decide (a = b)

/-- Pandas elementwise inequality (`!=`): NaN is unequal to everything. -/
def pdNe (a b : Val) : Bool := !(pdEq a b)

/-- Numeric view of a cell, when it holds an integer. -/
def Val.toIntOpt : Val → Option Int
  | Val.int n => some n
  | _ => none

/-- Pandas `astype(int)` on one cell: an integer stays, a numeric string is
parsed, anything else (NaN, non-numeric text) raises. -/
def valToIntE : Val → Except String Int
  | Val.int n => Except.ok n
  | Val.str s =>
      match s.toInt? with
      | some n => Except.ok n
      | none => Except.error "InvalidCorrectionValue"
  | Val.null => Except.error "InvalidCorrectionValue"

/-- Left-to-right effectful map over a list that stops at the first error,
mirroring a python loop that raises. -/
def exceptMap : List α → (α → Except ε β) → Except ε (List β)
  | [], _ => Except.ok []
  | a :: l, f =>
      match f a with
      | Except.error e => Except.error e
      | Except.ok b =>
          match exceptMap l f with
          | Except.error e => Except.error e
          | Except.ok bs => Except.ok (b :: bs)

/-! ### WardWatcher-side identifier corrector (`clean_icnarc_cis_ids`) -/

/-- One row of the ICNARC/WW registry-number extract
(`ICNARC 2015-2018 encounterIds and Readmissions.TXT`). -/
structure WWRow where
  unitId : Val
  icnarcNumber : Val
  cisPatientId : Val
  cisEpisodeId : Val
  readmission : Val
  key : Val
deriving DecidableEq

/-- One row of sheet `WW` of the correction spreadsheet, together with its
pandas index label (row position from `read_excel`), which survives the
unit filter and which the buggy membership test consults. -/
structure WWErrRow where
  idx : Int
  unitId : Val
  icnarcNumber : Val
  correctedEncId : Val
deriving DecidableEq

/-- Output row of `clean_icnarc_cis_ids`: the raw identifier column is
renamed to `CIS Patient ID Original` and a new `CIS Patient ID` column is
appended.  The new column is a `Cell` because the corrected branch stores a
pandas Series object, not a scalar. -/
structure CleanedWWRow where
  unitId : Val
  icnarcNumber : Val
  cisPatientIdOriginal : Val
  cisEpisodeId : Val
  readmission : Val
  key : Val
  cisPatientId : Cell
deriving DecidableEq

/-- `clean_icnarc_cis_ids` from `clean_encounterids.py` (lines 31-53):
filter `Unit ID != 14` on both inputs, then for each source row test
`row['ICNARC number'] in known_errors['ICNARC Number']` — python `in` on a
pandas Series tests the INDEX labels, hence the comparison against
`e.idx` — and on the taken branch store the sub-Series
`known_errors.loc[value == number]['Corrected encID']`; otherwise keep the
raw `CIS Patient ID Original`. -/
def clean_icnarc_cis_ids (src : List WWRow) (errs : List WWErrRow) :
    List CleanedWWRow :=
  let srcF := src.filter (fun r => !(pdEq r.unitId (Val.int 14)))
  let errsF := errs.filter (fun e => !(pdEq e.unitId (Val.int 14)))
  srcF.map (fun r =>
    let newVal : Cell :=
      if errsF.any (fun e => decide (Val.int e.idx = r.icnarcNumber)) then
        Cell.series
          ((errsF.filter (fun e => pdEq e.icnarcNumber r.icnarcNumber)).map
            (fun e => e.correctedEncId))
      else Cell.val r.cisPatientId
    { unitId := r.unitId, icnarcNumber := r.icnarcNumber,
      cisPatientIdOriginal := r.cisPatientId,
      cisEpisodeId := r.cisEpisodeId, readmission := r.readmission,
      key := r.key, cisPatientId := newVal })

/-! ### Philips-side identifier corrector (`clean_philips_encounterids`) -/

/-- One row of the Philips encounter-summary extract (tab-separated
`encounter_summary.rpt`). -/
structure PhRow where
  encounterId : Val
  ptCensusId : Val
  age : Val
  inTime : Val
  outTime : Val
  tNumber : Val
  lengthOfStay : Val
  gender : Val
deriving DecidableEq

/-- One row of sheet `encounterId` of the correction spreadsheet. -/
structure PhErrRow where
  encounterId_CIS : Val
  encounterId_Adjusted : Val
  clinicalUnitId : Val
  explanation : Val
deriving DecidableEq

/-- Output row of `clean_philips_encounterids`: the raw identifier is kept
as `encounterId_original` and the corrected, `astype(int)`-coerced value is
the new `encounterId` column.  The `error_type` field is only a real
column of the frame when the table's `hasErrorType` flag is set. -/
structure CleanedPhRow where
  encounterId_original : Val
  encounterId : Val
  ptCensusId : Val
  age : Val
  inTime : Val
  outTime : Val
  tNumber : Val
  lengthOfStay : Val
  gender : Val
  error_type : Val
deriving DecidableEq

/-- A Philips cleaned frame: its rows plus whether the optional
`error_type` column exists (it is added only when `log_error_type` is
set). -/
structure CleanedPhTable where
  hasErrorType : Bool
  rows : List CleanedPhRow
deriving DecidableEq

/-- Finalisation of one merged Philips row (raw row, matched
`encounterId_Adjusted`, matched `Explanation`): fill a missing adjusted
value with the original, coerce to integer via `astype(int)`, and turn a
missing explanation into the sentinel string `NA`. -/
def philipsFinalizeRow (m : PhRow × Val × Val) : Except String CleanedPhRow :=
  match valToIntE (if m.2.1 = Val.null then m.1.encounterId else m.2.1) with
  | Except.error e => Except.error e
  | Except.ok n =>
      Except.ok
        { encounterId_original := m.1.encounterId,
          encounterId := Val.int n,
          ptCensusId := m.1.ptCensusId, age := m.1.age,
          inTime := m.1.inTime, outTime := m.1.outTime,
          tNumber := m.1.tNumber, lengthOfStay := m.1.lengthOfStay,
          gender := m.1.gender,
          error_type := if m.2.2 = Val.null then Val.str "NA" else m.2.2 }

/-- The merge step of `clean_philips_encounterids` from
`clean_encounterids.py` (lines 55-84): filter `clinicalUnitId != 8.0` off
the correction sheet, then left-merge onto the extract by raw
`encounterId_CIS` (pandas merge matches null keys with null keys, and a
key matched by several correction rows is duplicated); an unmatched row
carries null `encounterId_Adjusted` and null `Explanation`. -/
def philipsMerged (data : List PhRow) (errs : List PhErrRow) :
    List (PhRow × Val × Val) :=
  let errsF := errs.filter (fun e => !(pdEq e.clinicalUnitId (Val.int 8)))
  (data.map (fun r =>
    let ms := errsF.filter (fun e => decide (e.encounterId_CIS = r.encounterId))
    if ms.isEmpty then [(r, Val.null, Val.null)]
    else ms.map (fun e => (r, e.encounterId_Adjusted, e.explanation)))).flatten

/-- `clean_philips_encounterids` itself: finalize every merged row via
`philipsFinalizeRow` (fillna with the original, `error_type` sentinel,
`astype(int)`), propagating the first coercion failure, and record whether
the `error_type` column was added (`log_error_type`, default `False` at
the call sites). -/
def clean_philips_encounterids (data : List PhRow) (errs : List PhErrRow)
    (log_error_type : Bool) : Except String CleanedPhTable :=
  match exceptMap (philipsMerged data errs) philipsFinalizeRow with
  | Except.error e => Except.error e
  | Except.ok rows => Except.ok { hasErrorType := log_error_type, rows := rows }

/-! ### Cross-source joiner (`join_icnarc_to_philips`) -/

/-- One row of the joined frame: all Philips columns (the shared join key
`encounterId` lives inside `ph`), plus the WW columns that survive the
final `drop(['CIS Patient ID', 'Key'])`. -/
structure JoinedRow where
  ph : CleanedPhRow
  unitId : Val
  icnarcNumber : Val
  cisPatientIdOriginal : Val
  cisEpisodeId : Val
  readmission : Val
deriving DecidableEq

/-- Build one joined row from a Philips row and a matching WW row. -/
def mkJoined (a : CleanedPhRow) (b : CleanedWWRow) : JoinedRow :=
  { ph := a, unitId := b.unitId, icnarcNumber := b.icnarcNumber,
    cisPatientIdOriginal := b.cisPatientIdOriginal,
    cisEpisodeId := b.cisEpisodeId, readmission := b.readmission }

/-- `join_icnarc_to_philips` from `clean_encounterids.py` (lines 86-95):
copy `CIS Patient ID` into a WW `encounterId` column, inner-merge the
Philips frame with the WW frame on `encounterId` (many-to-many: every
matching pair produces a row), then drop `CIS Patient ID` and `Key`. -/
def join_icnarc_to_philips (ph : List CleanedPhRow) (ww : List CleanedWWRow) :
    List JoinedRow :=
  (ph.map (fun a =>
    (ww.filter (fun b => decide (b.cisPatientId = Cell.val a.encounterId))).map
      (fun b => mkJoined a b))).flatten

/-- Number of Philips rows whose join key matches at least one WW row
("source-A matched rows" in the inner-join property). -/
def phMatched (ph : List CleanedPhRow) (ww : List CleanedWWRow) : Nat :=
  (ph.filter (fun a =>
    ww.any (fun b => decide (b.cisPatientId = Cell.val a.encounterId)))).length

/-- Number of WW rows whose join key matches at least one Philips row
("source-B matched rows" in the inner-join property). -/
def wwMatched (ph : List CleanedPhRow) (ww : List CleanedWWRow) : Nat :=
  (ww.filter (fun b =>
    ph.any (fun a => decide (b.cisPatientId = Cell.val a.encounterId)))).length

/-! ### Groupby machinery shared by the duplicate collapsers -/

/-- Rank of a value's kind, used for the key sort order. -/
def Val.rank : Val → Nat
  | Val.null => 0
  | Val.int _ => 1
  | Val.str _ => 2

/-- A total comparison on cell values (ints by magnitude, strings
lexicographically): the order `groupby(sort=True)` uses on its keys. -/
def vleB : Val → Val → Bool
  | Val.int a, Val.int b => decide (a ≤ b)
  | Val.str a, Val.str b => decide (a ≤ b)
  | a, b => decide (a.rank ≤ b.rank)

/-- Strict version of `vleB`. -/
def vltB (a b : Val) : Bool := vleB a b && !(vleB b a)

/-- Insert a value into a `vleB`-sorted list, keeping it sorted. -/
def insertV (a : Val) : List Val → List Val
  | [] => [a]
  | b :: l => if vleB a b then a :: b :: l else b :: insertV a l

/-- Insertion sort of group keys by `vleB` (pandas sorts group keys
ascending by default). -/
def sortVals : List Val → List Val
  | [] => []
  | a :: l => insertV a (sortVals l)

/-- The list of group keys `groupby` produces from a key column: null keys
are dropped, duplicates removed, and the keys sorted ascending. -/
def groupKeys (col : List Val) : List Val :=
  sortVals ((col.filter (fun v => !(decide (v = Val.null)))).dedup)

/-- Pandas groupby aggregation `first`: the first non-null value of the
group, null for an all-null group. -/
def agg_first (xs : List Val) : Val :=
  match xs.filter (fun v => !(decide (v = Val.null))) with
  | [] => Val.null
  | v :: _ => v

/-- Pandas groupby aggregation `last`: the last non-null value of the
group, null for an all-null group. -/
def agg_last (xs : List Val) : Val :=
  match (xs.filter (fun v => !(decide (v = Val.null)))).reverse with
  | [] => Val.null
  | v :: _ => v

/-- Binary minimum for the fold inside `agg_min`. -/
def vminB (a b : Val) : Val := if vltB b a then b else a

/-- Binary maximum for the fold inside `agg_max`. -/
def vmaxB (a b : Val) : Val := if vltB a b then b else a

/-- Pandas groupby aggregation `min`: minimum of the non-null values, null
for an all-null group. -/
def agg_min (xs : List Val) : Val :=
  match xs.filter (fun v => !(decide (v = Val.null))) with
  | [] => Val.null
  | v :: rest => rest.foldl vminB v

/-- Pandas groupby aggregation `max`: maximum of the non-null values, null
for an all-null group. -/
def agg_max (xs : List Val) : Val :=
  match xs.filter (fun v => !(decide (v = Val.null))) with
  | [] => Val.null
  | v :: rest => rest.foldl vmaxB v

/-- Pandas groupby aggregation `sum` on a numeric column: nulls are
skipped and an all-null group sums to 0. -/
def agg_sum (xs : List Val) : Val :=
  Val.int (xs.filterMap Val.toIntOpt).sum

/-- Pandas groupby aggregation `count`: the number of non-null values. -/
def agg_count (xs : List Val) : Nat :=
  (xs.filter (fun v => !(decide (v = Val.null)))).length

/-- `_get_err` from `clean_encounterids.py` (lines 122-127): drop the
values elementwise-equal to the string `NA` (nulls are kept, since
`NaN != 'NA'` holds in pandas); if nothing remains return `NA`, otherwise
the first remaining value. -/
def _get_err (x : List Val) : Val :=
  match x.filter (fun v => pdNe v (Val.str "NA")) with
  | [] => Val.str "NA"
  | v :: _ => v

/-! ### Duplicate collapser after the ICNARC join
(`combine_non_unique_encounters`) -/

/-- One row of a table accepted by `combine_non_unique_encounters`: the
grouping key `CIS Patient ID` plus every column its aggregation dictionary
names. -/
structure CombRow where
  cisPatientId : Val
  ptCensusId : Val
  age : Val
  inTime : Val
  outTime : Val
  tNumber : Val
  encounterId_original : Val
  lengthOfStay : Val
  gender : Val
  unitId : Val
  icnarcNumber : Val
  cisPatientIdOriginal : Val
  cisEpisodeId : Val
  readmission : Val
deriving DecidableEq

/-- The `simple`-mode aggregation of one group of
`combine_non_unique_encounters` (lines 178-191): `first` for the
categorical and identifier columns, `min` for `age`, `inTime` and
`Unit ID`, `max` for `outTime`, `sum` for `lengthOfStay (mins)`. -/
def combRowOfGroup (k : Val) (g : List CombRow) : CombRow :=
  { cisPatientId := k,
    ptCensusId := agg_first (g.map (fun r => r.ptCensusId)),
    age := agg_min (g.map (fun r => r.age)),
    inTime := agg_min (g.map (fun r => r.inTime)),
    outTime := agg_max (g.map (fun r => r.outTime)),
    tNumber := agg_first (g.map (fun r => r.tNumber)),
    encounterId_original := agg_first (g.map (fun r => r.encounterId_original)),
    lengthOfStay := agg_sum (g.map (fun r => r.lengthOfStay)),
    gender := agg_first (g.map (fun r => r.gender)),
    unitId := agg_min (g.map (fun r => r.unitId)),
    icnarcNumber := agg_first (g.map (fun r => r.icnarcNumber)),
    cisPatientIdOriginal := agg_first (g.map (fun r => r.cisPatientIdOriginal)),
    cisEpisodeId := agg_first (g.map (fun r => r.cisEpisodeId)),
    readmission := agg_first (g.map (fun r => r.readmission)) }

/-- `combine_non_unique_encounters(..., combine='simple')` from
`clean_encounterids.py` (lines 178-191): group by `CIS Patient ID` (null
keys dropped, keys sorted ascending) and aggregate each group with
`combRowOfGroup`.  In `simple` mode the column names are unchanged, so the
output rows have the input row type. -/
def combine_non_unique_encounters_simple (t : List CombRow) : List CombRow :=
  (groupKeys (t.map (fun r => r.cisPatientId))).map (fun k =>
    combRowOfGroup k (t.filter (fun r => decide (r.cisPatientId = k))))

/-- One row of the `concat`-mode output of
`combine_non_unique_encounters`: multi-level columns flattened as
`field_aggregator`. -/
structure CombConcatRow where
  cisPatientId : Val
  ptCensusId_count : Nat
  ptCensusId_list : List Val
  age_min : Val
  inTime_min : Val
  outTime_max : Val
  tNumber_first : Val
  encounterId_original_count : Nat
  encounterId_original_list : List Val
  lengthOfStay_sum : Val
  gender_first : Val
  unitId_min : Val
  icnarcNumber_count : Nat
  icnarcNumber_list : List Val
  cisPatientIdOriginal_count : Nat
  cisPatientIdOriginal_list : List Val
  cisEpisodeId_count : Nat
  cisEpisodeId_list : List Val
  readmission_first : Val
deriving DecidableEq

/-- `combine_non_unique_encounters(..., combine='concat')` from
`clean_encounterids.py` (lines 163-177): identifier and provenance
columns keep both a non-null `count` and the full list of group values;
the remaining columns aggregate as in `simple` mode. -/
def combine_non_unique_encounters_concat (t : List CombRow) :
    List CombConcatRow :=
  (groupKeys (t.map (fun r => r.cisPatientId))).map (fun k =>
    let g := t.filter (fun r => decide (r.cisPatientId = k))
    { cisPatientId := k,
      ptCensusId_count := agg_count (g.map (fun r => r.ptCensusId)),
      ptCensusId_list := g.map (fun r => r.ptCensusId),
      age_min := agg_min (g.map (fun r => r.age)),
      inTime_min := agg_min (g.map (fun r => r.inTime)),
      outTime_max := agg_max (g.map (fun r => r.outTime)),
      tNumber_first := agg_first (g.map (fun r => r.tNumber)),
      encounterId_original_count :=
        agg_count (g.map (fun r => r.encounterId_original)),
      encounterId_original_list := g.map (fun r => r.encounterId_original),
      lengthOfStay_sum := agg_sum (g.map (fun r => r.lengthOfStay)),
      gender_first := agg_first (g.map (fun r => r.gender)),
      unitId_min := agg_min (g.map (fun r => r.unitId)),
      icnarcNumber_count := agg_count (g.map (fun r => r.icnarcNumber)),
      icnarcNumber_list := g.map (fun r => r.icnarcNumber),
      cisPatientIdOriginal_count :=
        agg_count (g.map (fun r => r.cisPatientIdOriginal)),
      cisPatientIdOriginal_list := g.map (fun r => r.cisPatientIdOriginal),
      cisEpisodeId_count := agg_count (g.map (fun r => r.cisEpisodeId)),
      cisEpisodeId_list := g.map (fun r => r.cisEpisodeId),
      readmission_first := agg_first (g.map (fun r => r.readmission)) })

/-! ### Philips duplicate collapser
(`combine_non_unique_philips_encounters`) -/

/-- The `simple`-mode aggregation of one group of
`combine_non_unique_philips_encounters` (lines 143-152), including the
custom `_get_err` reducer on `error_type`. -/
def phRowOfGroup (k : Val) (g : List CleanedPhRow) : CleanedPhRow :=
  { encounterId_original := agg_first (g.map (fun r => r.encounterId_original)),
    encounterId := k,
    ptCensusId := agg_first (g.map (fun r => r.ptCensusId)),
    age := agg_min (g.map (fun r => r.age)),
    inTime := agg_min (g.map (fun r => r.inTime)),
    outTime := agg_max (g.map (fun r => r.outTime)),
    tNumber := agg_first (g.map (fun r => r.tNumber)),
    lengthOfStay := agg_sum (g.map (fun r => r.lengthOfStay)),
    gender := agg_first (g.map (fun r => r.gender)),
    error_type := _get_err (g.map (fun r => r.error_type)) }

/-- `combine_non_unique_philips_encounters(..., combine='simple')` from
`clean_encounterids.py` (lines 143-152): the aggregation dictionary names
the `error_type` column, so pandas raises a `KeyError` when the input
frame does not carry it; otherwise group by `encounterId` and aggregate
with `phRowOfGroup`. -/
def combine_non_unique_philips_encounters_simple (t : CleanedPhTable) :
    Except String (List CleanedPhRow) :=
  if t.hasErrorType = false then
    Except.error "KeyError: column error_type does not exist"
  else
    Except.ok ((groupKeys (t.rows.map (fun r => r.encounterId))).map (fun k =>
      phRowOfGroup k (t.rows.filter (fun r => decide (r.encounterId = k)))))

/-- One row of the `concat`-mode output of
`combine_non_unique_philips_encounters` (lines 132-142); note `gender`
aggregates with `last` in this mode. -/
structure PhConcatRow where
  encounterId : Val
  ptCensusId_count : Nat
  ptCensusId_list : List Val
  age_min : Val
  inTime_min : Val
  outTime_max : Val
  tNumber_first : Val
  encounterId_original_count : Nat
  encounterId_original_list : List Val
  lengthOfStay_sum : Val
  gender_last : Val
  error_type_get_err : Val
deriving DecidableEq

/-- `combine_non_unique_philips_encounters(..., combine='concat')` from
`clean_encounterids.py` (lines 132-142): also names `error_type` in its
aggregation dictionary, so it too raises a `KeyError` when the column is
missing. -/
def combine_non_unique_philips_encounters_concat (t : CleanedPhTable) :
    Except String (List PhConcatRow) :=
  if t.hasErrorType = false then
    Except.error "KeyError: column error_type does not exist"
  else
    Except.ok ((groupKeys (t.rows.map (fun r => r.encounterId))).map (fun k =>
      let g := t.rows.filter (fun r => decide (r.encounterId = k))
      { encounterId := k,
        ptCensusId_count := agg_count (g.map (fun r => r.ptCensusId)),
        ptCensusId_list := g.map (fun r => r.ptCensusId),
        age_min := agg_min (g.map (fun r => r.age)),
        inTime_min := agg_min (g.map (fun r => r.inTime)),
        outTime_max := agg_max (g.map (fun r => r.outTime)),
        tNumber_first := agg_first (g.map (fun r => r.tNumber)),
        encounterId_original_count :=
          agg_count (g.map (fun r => r.encounterId_original)),
        encounterId_original_list := g.map (fun r => r.encounterId_original),
        lengthOfStay_sum := agg_sum (g.map (fun r => r.lengthOfStay)),
        gender_last := agg_last (g.map (fun r => r.gender)),
        error_type_get_err := _get_err (g.map (fun r => r.error_type)) }))

/-! ### Wide-table extractor (`parse_ICNARC_xml.py`) -/

/-- One patient element of the WardWatcher XML: the child tags (after
namespace stripping) with their text, in document order.  The python code
stores them in a dict, so a repeated tag keeps its LAST occurrence. -/
structure Patient where
  fields : List (String × Val)
deriving DecidableEq

/-- The parsed XML document: one `Patient` per top-level element. -/
abbrev XmlDoc := List Patient

/-- One row of sheet `CMP_Dataset` of the field dictionary: a CMP field
code and its human-readable description. -/
structure CmpRow where
  code : String
  description : String
deriving DecidableEq

/-- Errors the success path of the extractor can raise: a missing column
(`KeyError`) or `int()` failing on a registry number. -/
inductive RunErr where
  | keyError : RunErr
  | malformedIdentifier : RunErr
deriving DecidableEq

/-- A column-oriented dataframe: column name with its values. -/
abbrev Table := List (String × List Val)

/-- First column of the given name, as python `df[name]` reads it
(a missing column is a `KeyError`). -/
def getColE (t : Table) (name : String) : Except RunErr (List Val) :=
  match t.find? (fun c => decide (c.1 = name)) with
  | some c => Except.ok c.2
  | none => Except.error RunErr.keyError

/-- First column of the given name, if present. -/
def lookupCol (t : Table) (name : String) : Option (List Val) :=
  (t.find? (fun c => decide (c.1 = name))).map (fun c => c.2)

/-- Column assignment `df[name] = col`: replace an existing column of that
name, else append a new one at the end. -/
def setCol (t : Table) (name : String) (col : List Val) : Table :=
  if t.any (fun c => decide (c.1 = name)) then
    t.map (fun c => if c.1 = name then (name, col) else c)
  else t ++ [(name, col)]

/-- Column drop `df.drop(columns=[name])`. -/
def dropCol (t : Table) (name : String) : Table :=
  t.filter (fun c => !(decide (c.1 = name)))

/-- The unit mapping applied per cell of the `ICNARC CMP Number` column:
`1 if i=='H91' else 14` (`parse_ICNARC_xml.py` line 72). -/
def unit_from_cmp (v : Val) : Val :=
  if v = Val.str "H91" then Val.int 1 else Val.int 14

/-- Python `int(i)` on a registry-number cell: parses integer strings,
keeps integers, raises on anything else (None, NaN, non-numeric text). -/
def intOfVal : Val → Except RunErr Val
  | Val.int n => Except.ok (Val.int n)
  | Val.str s =>
      match s.toInt? with
      | some n => Except.ok (Val.int n)
      | none => Except.error RunErr.malformedIdentifier
  | Val.null => Except.error RunErr.malformedIdentifier

/-- `convert_unit_numbers` from `parse_ICNARC_xml.py` (lines 66-75): add
`Unit ID` mapped from `ICNARC CMP Number` by `unit_from_cmp`, add
`ICNARC number` as `int()` of each `ICNARC Number` cell, then drop the
original `ICNARC Number` column.  Reading a missing column raises a
`KeyError`. -/
def convert_unit_numbers (t : Table) : Except RunErr Table :=
  match getColE t "ICNARC CMP Number" with
  | Except.error e => Except.error e
  | Except.ok cmpCol =>
      match getColE t "ICNARC Number" with
      | Except.error e => Except.error e
      | Except.ok numCol =>
          match exceptMap numCol intOfVal with
          | Except.error e => Except.error e
          | Except.ok nums =>
              Except.ok
                (dropCol
                  (setCol (setCol t "Unit ID" (cmpCol.map unit_from_cmp))
                    "ICNARC number" nums)
                  "ICNARC Number")

/-- Dict lookup `_xml[patient][code] if code in _xml[patient] else NaN`;
a repeated tag keeps its last occurrence, as the dict assignment does. -/
def lookupField (p : Patient) (code : String) : Val :=
  match p.fields.reverse.find? (fun f => decide (f.1 = code)) with
  | some f => f.2
  | none => Val.null

/-- `parse_icnarc_xml` from `parse_ICNARC_xml.py` (lines 22-64).  Reading
the two external files is modelled by `Except`-valued inputs: a failed XML
parse or a failed field-dictionary load is the `error` case.  Either
failure prints a warning and returns the (still-empty) dataframe `data`;
otherwise one column per dictionary row whose code occurs in at least one
patient is built, with `NaN` for patients lacking the field, and
`convert_unit_numbers` finishes. The result pairs the printed warnings
with the outcome of the run. -/
def parse_icnarc_xml (xml : Except String XmlDoc)
    (cmp : Except String (List CmpRow)) :
    List String × Except RunErr Table :=
  match xml with
  | Except.error _ =>
      (["Warning: could not read xml file, returning empty dataframe."],
        Except.ok [])
  | Except.ok doc =>
      match cmp with
      | Except.error _ =>
          (["Warning: could not read CMP properties file, returning empty dataframe."],
            Except.ok [])
      | Except.ok cmpRows =>
          let codes_in_use : List String :=
            doc.foldl (fun s p => s ++ p.fields.map Prod.fst) []
          let data : Table :=
            cmpRows.foldl (fun t row =>
              if codes_in_use.contains row.code then
                setCol t row.description
                  (doc.map (fun p => lookupField p row.code))
              else t) []
          ([], convert_unit_numbers data)

/-! ### General lemmas about the embedded pandas operations -/

lemma ne_of_pdEq_false {a : Val} {n : Int} (h : pdEq a (Val.int n) = false) :
    a ≠ Val.int n := by
  intro heq
  subst heq
  simp [pdEq] at h

lemma pdNe_NA_false_iff (v : Val) :
    pdNe v (Val.str "NA") = false ↔ v = Val.str "NA" := by
  cases v <;> simp [pdNe, pdEq]

lemma filter_idem (p : α → Bool) (l : List α) :
    (l.filter p).filter p = l.filter p :=
  List.filter_eq_self.mpr (fun _ ha => (List.mem_filter.mp ha).2)

lemma exceptMap_forall {α β ε : Type _} (f : α → Except ε β) (P : β → Prop)
    (hf : ∀ a b, f a = Except.ok b → P b) :
    ∀ l out, exceptMap l f = Except.ok out → ∀ r ∈ out, P r := by
  intro l
  induction l with
  | nil =>
      intro out h r hr
      simp only [exceptMap, Except.ok.injEq] at h
      subst h
      simp at hr
  | cons a l ih =>
      intro out h r hr
      rw [exceptMap] at h
      cases hfa : f a with
      | error e => rw [hfa] at h; exact absurd h (by simp)
      | ok b =>
          rw [hfa] at h
          cases hm : exceptMap l f with
          | error e => rw [hm] at h; exact absurd h (by simp)
          | ok bs =>
              rw [hm] at h
              simp only [Except.ok.injEq] at h
              subst h
              rcases List.mem_cons.mp hr with hrb | hrbs
              · subst hrb; exact hf a r hfa
              · exact ih bs hm r hrbs

lemma vleB_refl (a : Val) : vleB a a = true := by
  cases a <;> simp [vleB, Val.rank]

lemma vleB_of_vltB {a b : Val} (h : vltB a b = true) : vleB a b = true := by
  simp only [vltB, Bool.and_eq_true] at h
  exact h.1

lemma vltB_ne {a b : Val} (h : vltB a b = true) : a ≠ b := by
  intro heq
  subst heq
  simp [vltB, vleB_refl] at h

lemma sortVals_sorted_id :
    ∀ l : List Val, l.Pairwise (fun a b => vleB a b = true) → sortVals l = l := by
  intro l
  induction l with
  | nil => intro _; rfl
  | cons a l ih =>
      intro h
      rcases List.pairwise_cons.mp h with ⟨h1, h2⟩
      show insertV a (sortVals l) = a :: l
      rw [ih h2]
      cases l with
      | nil => rfl
      | cons b l2 => simp [insertV, h1 b (by simp)]

lemma groupKeys_id (l : List Val) (hn : ∀ v ∈ l, v ≠ Val.null)
    (hs : l.Pairwise (fun a b => vltB a b = true)) : groupKeys l = l := by
  have hnodup : l.Nodup := hs.imp (fun h => vltB_ne h)
  have hfilter : l.filter (fun v => !(decide (v = Val.null))) = l :=
    List.filter_eq_self.mpr (fun v hv => by simp [hn v hv])
  rw [groupKeys, hfilter, List.dedup_eq_self.mpr hnodup,
    sortVals_sorted_id _ (hs.imp (fun h => vleB_of_vltB h))]

lemma agg_first_singleton (v : Val) : agg_first [v] = v := by
  by_cases h : v = Val.null
  · subst h; rfl
  · simp [agg_first, List.filter_cons, h]

lemma agg_min_singleton (v : Val) : agg_min [v] = v := by
  by_cases h : v = Val.null
  · subst h; rfl
  · simp [agg_min, List.filter_cons, h]

lemma agg_max_singleton (v : Val) : agg_max [v] = v := by
  by_cases h : v = Val.null
  · subst h; rfl
  · simp [agg_max, List.filter_cons, h]

lemma agg_sum_singleton (n : Int) : agg_sum [Val.int n] = Val.int n := by
  simp [agg_sum, List.filterMap_cons, Val.toIntOpt]

lemma get_err_singleton (v : Val) : _get_err [v] = v := by
  by_cases h : v = Val.str "NA"
  · subst h; rfl
  · have hne : pdNe v (Val.str "NA") = true := by
      cases hb : pdNe v (Val.str "NA")
      · exact absurd ((pdNe_NA_false_iff v).mp hb) h
      · rfl
    simp [_get_err, List.filter_cons, hne]

lemma foldl_vminB_mem :
    ∀ (l : List Val) (acc : Val), l.foldl vminB acc = acc ∨ l.foldl vminB acc ∈ l := by
  intro l
  induction l with
  | nil => intro acc; left; rfl
  | cons b l ih =>
      intro acc
      rcases ih (vminB acc b) with h | h
      · rw [List.foldl_cons, h]
        by_cases hv : vltB b acc = true
        · right; simp [vminB, hv]
        · left; simp [vminB, hv]
      · right
        rw [List.foldl_cons]
        exact List.mem_cons_of_mem b h

lemma agg_min_cases (xs : List Val) : agg_min xs = Val.null ∨ agg_min xs ∈ xs := by
  unfold agg_min
  cases hf : xs.filter (fun v => !(decide (v = Val.null))) with
  | nil => left; rfl
  | cons v rest =>
      rcases foldl_vminB_mem rest v with h | h
      · right
        show List.foldl vminB v rest ∈ xs
        rw [h]
        exact List.mem_of_mem_filter (by rw [hf]; exact List.mem_cons_self v rest)
      · right
        show List.foldl vminB v rest ∈ xs
        exact List.mem_of_mem_filter (by rw [hf]; exact List.mem_cons_of_mem v h)

lemma combRowOfGroup_singleton (r : CombRow)
    (hn : ∃ n : Int, r.lengthOfStay = Val.int n) :
    combRowOfGroup r.cisPatientId [r] = r := by
  rcases hn with ⟨n, hlos⟩
  unfold combRowOfGroup
  simp only [List.map_cons, List.map_nil, agg_first_singleton,
    agg_min_singleton, agg_max_singleton]
  rw [hlos, agg_sum_singleton, ← hlos]

lemma phRowOfGroup_singleton (r : CleanedPhRow)
    (hn : ∃ n : Int, r.lengthOfStay = Val.int n) :
    phRowOfGroup r.encounterId [r] = r := by
  rcases hn with ⟨n, hlos⟩
  unfold phRowOfGroup
  simp only [List.map_cons, List.map_nil, agg_first_singleton,
    agg_min_singleton, agg_max_singleton, get_err_singleton]
  rw [hlos, agg_sum_singleton, ← hlos]

lemma comb_map_groups_id :
    ∀ t : List CombRow,
      (t.map (fun r => r.cisPatientId)).Nodup →
      (∀ r ∈ t, ∃ n : Int, r.lengthOfStay = Val.int n) →
      ((t.map (fun r => r.cisPatientId)).map (fun k =>
        combRowOfGroup k (t.filter (fun r => decide (r.cisPatientId = k))))) = t := by
  intro t
  induction t with
  | nil => intro _ _; rfl
  | cons r t ih =>
      intro hnd hlos
      rw [List.map_cons] at hnd
      rcases List.pairwise_cons.mp hnd with ⟨hnotin, hnd'⟩
      rw [List.map_cons, List.map_cons]
      have hhead :
          ((r :: t).filter (fun x => decide (x.cisPatientId = r.cisPatientId))) = [r] := by
        rw [List.filter_cons, if_pos (by simp)]
        rw [List.filter_eq_nil_iff.mpr ?_]
        intro x hx
        simp only [decide_eq_true_eq]
        intro hxk
        exact hnotin x.cisPatientId (List.mem_map.mpr ⟨x, hx, rfl⟩) hxk.symm
      have htail :
          (t.map (fun x => x.cisPatientId)).map (fun k =>
            combRowOfGroup k ((r :: t).filter (fun x => decide (x.cisPatientId = k)))) =
          (t.map (fun x => x.cisPatientId)).map (fun k =>
            combRowOfGroup k (t.filter (fun x => decide (x.cisPatientId = k)))) := by
        refine List.map_congr_left ?_
        intro k hk
        have hne : r.cisPatientId ≠ k := hnotin k hk
        rw [List.filter_cons, if_neg (by simpa using hne)]
      rw [hhead, htail, combRowOfGroup_singleton r (hlos r (List.mem_cons_self r t)),
        ih hnd' (fun x hx => hlos x (List.mem_cons_of_mem r hx))]

lemma ph_map_groups_id :
    ∀ t : List CleanedPhRow,
      (t.map (fun r => r.encounterId)).Nodup →
      (∀ r ∈ t, ∃ n : Int, r.lengthOfStay = Val.int n) →
      ((t.map (fun r => r.encounterId)).map (fun k =>
        phRowOfGroup k (t.filter (fun r => decide (r.encounterId = k))))) = t := by
  intro t
  induction t with
  | nil => intro _ _; rfl
  | cons r t ih =>
      intro hnd hlos
      rw [List.map_cons] at hnd
      rcases List.pairwise_cons.mp hnd with ⟨hnotin, hnd'⟩
      rw [List.map_cons, List.map_cons]
      have hhead :
          ((r :: t).filter (fun x => decide (x.encounterId = r.encounterId))) = [r] := by
        rw [List.filter_cons, if_pos (by simp)]
        rw [List.filter_eq_nil_iff.mpr ?_]
        intro x hx
        simp only [decide_eq_true_eq]
        intro hxk
        exact hnotin x.encounterId (List.mem_map.mpr ⟨x, hx, rfl⟩) hxk.symm
      have htail :
          (t.map (fun x => x.encounterId)).map (fun k =>
            phRowOfGroup k ((r :: t).filter (fun x => decide (x.encounterId = k)))) =
          (t.map (fun x => x.encounterId)).map (fun k =>
            phRowOfGroup k (t.filter (fun x => decide (x.encounterId = k)))) := by
        refine List.map_congr_left ?_
        intro k hk
        have hne : r.encounterId ≠ k := hnotin k hk
        rw [List.filter_cons, if_neg (by simpa using hne)]
      rw [hhead, htail, phRowOfGroup_singleton r (hlos r (List.mem_cons_self r t)),
        ih hnd' (fun x hx => hlos x (List.mem_cons_of_mem r hx))]

lemma length_filter_mono (p q : α → Bool) (l : List α)
    (h : ∀ a ∈ l, p a = true → q a = true) :
    (l.filter p).length ≤ (l.filter q).length := by
  induction l with
  | nil => simp
  | cons a l ih =>
      have ih2 := ih (fun x hx hpx => h x (List.mem_cons_of_mem a hx) hpx)
      by_cases hp : p a = true
      · rw [List.filter_cons, if_pos hp, List.filter_cons,
          if_pos (h a (List.mem_cons_self a l) hp)]
        simpa using ih2
      · rw [List.filter_cons, if_neg hp]
        refine le_trans ih2 ?_
        rw [List.filter_cons]
        split
        · simp [Nat.le_succ]
        · exact le_refl _

/-! ### Table-column lemmas for the extractor -/

lemma lookupCol_of_getColE {t : Table} {name : String} {col : List Val}
    (h : getColE t name = Except.ok col) : lookupCol t name = some col := by
  unfold getColE at h
  cases hf : t.find? (fun c => decide (c.1 = name)) with
  | none => rw [hf] at h; exact absurd h (by simp)
  | some c =>
      rw [hf] at h
      simp only [Except.ok.injEq] at h
      subst h
      unfold lookupCol
      rw [hf]
      rfl

lemma find?_map_replace_self (name : String) (col : List Val) :
    ∀ t : Table, t.any (fun c => decide (c.1 = name)) = true →
      (t.map (fun c => if c.1 = name then (name, col) else c)).find?
        (fun c => decide (c.1 = name)) = some (name, col) := by
  intro t
  induction t with
  | nil => intro h; simp at h
  | cons c t ih =>
      intro hany
      by_cases hc : c.1 = name
      · rw [List.map_cons, if_pos hc]
        rw [List.find?_cons_of_pos _ (by simp)]
      · rw [List.map_cons, if_neg hc]
        rw [List.find?_cons_of_neg _ (by simp [hc])]
        refine ih ?_
        simpa [List.any_cons, hc] using hany

lemma find?_map_replace_ne (name m : String) (col : List Val) (hne : m ≠ name) :
    ∀ t : Table,
      (t.map (fun c => if c.1 = name then (name, col) else c)).find?
        (fun c => decide (c.1 = m)) = t.find? (fun c => decide (c.1 = m)) := by
  intro t
  induction t with
  | nil => rfl
  | cons c t ih =>
      by_cases hc : c.1 = name
      · rw [List.map_cons, if_pos hc]
        rw [List.find?_cons_of_neg _ (by simp [Ne.symm hne]),
          List.find?_cons_of_neg _ (by simp [hc, Ne.symm hne])]
        exact ih
      · rw [List.map_cons, if_neg hc]
        by_cases hm : c.1 = m
        · rw [List.find?_cons_of_pos _ (by simp [hm]),
            List.find?_cons_of_pos _ (by simp [hm])]
        · rw [List.find?_cons_of_neg _ (by simp [hm]),
            List.find?_cons_of_neg _ (by simp [hm])]
          exact ih

lemma lookupCol_setCol_self (t : Table) (name : String) (col : List Val) :
    lookupCol (setCol t name col) name = some col := by
  unfold setCol lookupCol
  by_cases hany : t.any (fun c => decide (c.1 = name)) = true
  · rw [if_pos hany, find?_map_replace_self name col t hany]
    rfl
  · rw [if_neg hany, List.find?_append]
    have hnone : t.find? (fun c => decide (c.1 = name)) = none :=
      List.find?_eq_none.mpr
        (fun x hx hpx => hany (List.any_eq_true.mpr ⟨x, hx, hpx⟩))
    rw [hnone]
    simp [List.find?_cons_of_pos]

lemma lookupCol_setCol_ne (t : Table) {name m : String} (col : List Val)
    (hne : m ≠ name) : lookupCol (setCol t name col) m = lookupCol t m := by
  unfold setCol lookupCol
  by_cases hany : t.any (fun c => decide (c.1 = name)) = true
  · rw [if_pos hany, find?_map_replace_ne name m col hne t]
  · rw [if_neg hany, List.find?_append]
    have h2 : List.find? (fun c => decide (c.1 = m)) [(name, col)] = none := by
      simp [List.find?, Ne.symm hne]
    rw [h2]
    cases t.find? (fun c => decide (c.1 = m)) <;> rfl

lemma lookupCol_dropCol_ne (t : Table) {name m : String} (hne : m ≠ name) :
    lookupCol (dropCol t name) m = lookupCol t m := by
  unfold dropCol lookupCol
  induction t with
  | nil => rfl
  | cons c t ih =>
      by_cases hc : c.1 = name
      · rw [List.filter_cons, if_neg (by simp [hc])]
        rw [List.find?_cons_of_neg _ (by simp [hc, Ne.symm hne])]
        exact ih
      · rw [List.filter_cons, if_pos (by simp [hc])]
        by_cases hm : c.1 = m
        · rw [List.find?_cons_of_pos _ (by simp [hm]),
            List.find?_cons_of_pos _ (by simp [hm])]
        · rw [List.find?_cons_of_neg _ (by simp [hm]),
            List.find?_cons_of_neg _ (by simp [hm])]
          exact ih

/-! ### Claim C1 -/

/-- A WW source row whose registry number 100 carries raw identifier 5. -/
def wwSrcC1 : List WWRow :=
  [{ unitId := Val.int 1, icnarcNumber := Val.int 100, cisPatientId := Val.int 5,
     cisEpisodeId := Val.int 1, readmission := Val.null, key := Val.int 0 }]

/-- A WW correction sheet (index label 0) mapping registry number 100 to
corrected identifier 77. -/
def wwErrsC1 : List WWErrRow :=
  [{ idx := 0, unitId := Val.int 1, icnarcNumber := Val.int 100,
     correctedEncId := Val.int 77 }]

/-- C1: the claim says a row whose registry number is present in the
correction table gets the table's corrected value.  The code does not: with
registry number 100 present in the table (corrected value 77), the output
still carries the raw identifier 5, because the membership test
`row['ICNARC number'] in known_errors['ICNARC Number']` consults the
Series index labels (here only 0), not its values. -/
theorem c1_correction_ignored_for_present_registry_number :
    ((wwErrsC1.filter (fun e => pdEq e.icnarcNumber (Val.int 100))).map
      (fun e => e.correctedEncId) = [Val.int 77])
    ∧ (clean_icnarc_cis_ids wwSrcC1 wwErrsC1).map (fun r => r.cisPatientId) =
        [Cell.val (Val.int 5)]
    ∧ Cell.val (Val.int 5) ≠ Cell.val (Val.int 77) := by
  decide

/-! ### Claim C4 -/

/-- A WW source row whose registry number 0 is absent from the correction
table values but collides with the table's index label 0. -/
def wwSrcC4 : List WWRow :=
  [{ unitId := Val.int 1, icnarcNumber := Val.int 0, cisPatientId := Val.int 5,
     cisEpisodeId := Val.int 1, readmission := Val.null, key := Val.int 0 }]

/-- A WW correction sheet whose only entry (index label 0) is for the
unrelated registry number 999. -/
def wwErrsC4 : List WWErrRow :=
  [{ idx := 0, unitId := Val.int 1, icnarcNumber := Val.int 999,
     correctedEncId := Val.int 77 }]

/-- C4: the claim says a row whose registry number is absent from the
correction table keeps its raw identifier unchanged.  The code does not:
registry number 0 is absent from the table values, yet because 0 equals a
surviving index label the lookup branch is taken and the cell receives the
empty sub-Series selected by `known_errors['ICNARC Number'] == 0`, not the
raw value 5. -/
theorem c4_passthrough_violated_by_index_collision :
    (wwErrsC4.all (fun e => !(pdEq e.icnarcNumber (Val.int 0))) = true)
    ∧ (clean_icnarc_cis_ids wwSrcC4 wwErrsC4).map (fun r => r.cisPatientId) =
        [Cell.series []]
    ∧ Cell.series [] ≠ Cell.val (Val.int 5) := by
  decide

/-! ### Claim C2 -/

/-- A WW source row with a missing raw `CIS Patient ID`. -/
def wwSrcC2 : List WWRow :=
  [{ unitId := Val.int 1, icnarcNumber := Val.int 50, cisPatientId := Val.null,
     cisEpisodeId := Val.int 1, readmission := Val.null, key := Val.int 0 }]

/-- C2 counterexample: in the WW variant the corrected-identifier column is
not always a non-null integer — a row with a missing raw identifier and no
correction passes the null through (no `astype(int)` is applied on this
side). -/
theorem c2_ww_corrected_id_can_be_null :
    ¬ (∀ r ∈ clean_icnarc_cis_ids wwSrcC2 [], ∃ n : Int,
        r.cisPatientId = Cell.val (Val.int n)) := by
  intro h
  obtain ⟨n, hn⟩ :=
    h { unitId := Val.int 1, icnarcNumber := Val.int 50,
        cisPatientIdOriginal := Val.null, cisEpisodeId := Val.int 1,
        readmission := Val.null, key := Val.int 0,
        cisPatientId := Cell.val Val.null } (by decide)
  simp at hn

/-- C2 (amended): the non-null-integer guarantee holds for the Philips
variant — whenever `clean_philips_encounterids` returns a frame, every
row's `encounterId` is an integer value, because of the final
`astype(int)`.  The WW variant applies no coercion (see the
counterexample). -/
theorem c2_philips_corrected_id_always_int :
    ∀ (data : List PhRow) (errs : List PhErrRow) (log : Bool)
      (t : CleanedPhTable),
      clean_philips_encounterids data errs log = Except.ok t →
      ∀ r ∈ t.rows, ∃ n : Int, r.encounterId = Val.int n := by
  intro data errs log t h r hr
  unfold clean_philips_encounterids at h
  cases hm : exceptMap (philipsMerged data errs) philipsFinalizeRow with
  | error e => rw [hm] at h; exact absurd h (by simp)
  | ok rows =>
      rw [hm] at h
      simp only [Except.ok.injEq] at h
      subst h
      refine exceptMap_forall philipsFinalizeRow
        (fun b => ∃ n : Int, b.encounterId = Val.int n) ?_ _ rows hm r hr
      intro m b hb
      unfold philipsFinalizeRow at hb
      cases hv : valToIntE (if m.2.1 = Val.null then m.1.encounterId else m.2.1) with
      | error e => rw [hv] at hb; exact absurd hb (by simp)
      | ok n =>
          rw [hv] at hb
          simp only [Except.ok.injEq] at hb
          subst hb
          exact ⟨n, rfl⟩

/-- A one-row Philips extract used to instantiate the amended C2. -/
def phDataC2 : List PhRow :=
  [{ encounterId := Val.int 3, ptCensusId := Val.int 1, age := Val.int 50,
     inTime := Val.int 10, outTime := Val.int 20, tNumber := Val.str "T1",
     lengthOfStay := Val.int 30, gender := Val.str "F" }]

/-- The single row `clean_philips_encounterids` produces from `phDataC2`
with an empty correction table. -/
def phRowOutC2 : CleanedPhRow :=
  { encounterId_original := Val.int 3, encounterId := Val.int 3,
    ptCensusId := Val.int 1, age := Val.int 50,
    inTime := Val.int 10, outTime := Val.int 20,
    tNumber := Val.str "T1", lengthOfStay := Val.int 30,
    gender := Val.str "F", error_type := Val.str "NA" }

/-- The frame `clean_philips_encounterids` produces from `phDataC2` with an
empty correction table and the default `log_error_type=False`. -/
def phOutC2 : CleanedPhTable :=
  { hasErrorType := false, rows := [phRowOutC2] }

/-- Witness for the amended C2 at a concrete input row. -/
theorem c2_philips_corrected_id_always_int_witness :
    ∃ n : Int, phRowOutC2.encounterId = Val.int n :=
  c2_philips_corrected_id_always_int phDataC2 [] false phOutC2 rfl
    phRowOutC2 (List.mem_cons_self _ _)

/-! ### Claim C3 -/

/-- C3: rows of the reserved excluded unit never reach any output — both
corrector variants behave as if the excluded-unit rows had been removed
from their correction inputs beforehand (conjuncts 1 and 2), the WW
corrector output itself carries no excluded-unit row (conjunct 3), hence
neither does the joined table (conjunct 4), and collapsing any table free
of excluded-unit rows yields no excluded-unit row in either mode, the
`Unit ID` aggregation being `min` over the group (conjunct 5). -/
theorem c3_excluded_unit_rows_absent :
    (∀ (src : List WWRow) (errs : List WWErrRow),
        clean_icnarc_cis_ids src errs =
          clean_icnarc_cis_ids
            (src.filter (fun r => !(pdEq r.unitId (Val.int 14))))
            (errs.filter (fun e => !(pdEq e.unitId (Val.int 14)))))
    ∧ (∀ (data : List PhRow) (errs : List PhErrRow) (log : Bool),
        clean_philips_encounterids data errs log =
          clean_philips_encounterids data
            (errs.filter (fun e => !(pdEq e.clinicalUnitId (Val.int 8)))) log)
    ∧ (∀ (src : List WWRow) (errs : List WWErrRow) (r : CleanedWWRow),
        r ∈ clean_icnarc_cis_ids src errs → r.unitId ≠ Val.int 14)
    ∧ (∀ (ph : List CleanedPhRow) (src : List WWRow) (errs : List WWErrRow)
        (j : JoinedRow),
        j ∈ join_icnarc_to_philips ph (clean_icnarc_cis_ids src errs) →
        j.unitId ≠ Val.int 14)
    ∧ (∀ t : List CombRow, (∀ r ∈ t, r.unitId ≠ Val.int 14) →
        (∀ g ∈ combine_non_unique_encounters_simple t, g.unitId ≠ Val.int 14)
        ∧ (∀ g ∈ combine_non_unique_encounters_concat t,
            g.unitId_min ≠ Val.int 14)) := by
  have hclean : ∀ (src : List WWRow) (errs : List WWErrRow) (r : CleanedWWRow),
      r ∈ clean_icnarc_cis_ids src errs → r.unitId ≠ Val.int 14 := by
    intro src errs r hr
    simp only [clean_icnarc_cis_ids] at hr
    rcases List.mem_map.mp hr with ⟨r0, hr0, hre⟩
    have hp := (List.mem_filter.mp hr0).2
    have hu : r.unitId = r0.unitId := by rw [← hre]
    rw [hu]
    exact ne_of_pdEq_false (by simpa using hp)
  have hmin : ∀ (t : List CombRow) (k : Val),
      (∀ r ∈ t, r.unitId ≠ Val.int 14) →
      agg_min ((t.filter (fun r => decide (r.cisPatientId = k))).map
        (fun r => r.unitId)) ≠ Val.int 14 := by
    intro t k ht
    rcases agg_min_cases ((t.filter (fun r => decide (r.cisPatientId = k))).map
      (fun r => r.unitId)) with h | h
    · rw [h]; intro hc; exact absurd hc (by simp)
    · rcases List.mem_map.mp h with ⟨r0, hr0, hre⟩
      rw [← hre]
      exact ht r0 (List.mem_of_mem_filter hr0)
  refine ⟨?_, ?_, hclean, ?_, ?_⟩
  · intro src errs
    simp only [clean_icnarc_cis_ids, filter_idem]
  · intro data errs log
    simp only [clean_philips_encounterids, philipsMerged, filter_idem]
  · intro ph src errs j hj
    unfold join_icnarc_to_philips at hj
    rcases List.mem_flatten.mp hj with ⟨L, hL, hjL⟩
    rcases List.mem_map.mp hL with ⟨a, _, hfa⟩
    rw [← hfa] at hjL
    rcases List.mem_map.mp hjL with ⟨b, hb, hjb⟩
    have hu : j.unitId = b.unitId := by rw [← hjb]; rfl
    rw [hu]
    exact hclean src errs b (List.mem_of_mem_filter hb)
  · intro t ht
    constructor
    · intro g hg
      unfold combine_non_unique_encounters_simple at hg
      rcases List.mem_map.mp hg with ⟨k, _, hgk⟩
      have : g.unitId = agg_min ((t.filter
          (fun r => decide (r.cisPatientId = k))).map (fun r => r.unitId)) := by
        rw [← hgk]; rfl
      rw [this]
      exact hmin t k ht
    · intro g hg
      unfold combine_non_unique_encounters_concat at hg
      rcases List.mem_map.mp hg with ⟨k, _, hgk⟩
      have : g.unitId_min = agg_min ((t.filter
          (fun r => decide (r.cisPatientId = k))).map (fun r => r.unitId)) := by
        rw [← hgk]
      rw [this]
      exact hmin t k ht

/-- A row with a non-excluded unit, used to instantiate C3. -/
def combRC3 : CombRow :=
  { cisPatientId := Val.int 9, ptCensusId := Val.int 1, age := Val.int 44,
    inTime := Val.int 1, outTime := Val.int 2, tNumber := Val.str "T9",
    encounterId_original := Val.int 9, lengthOfStay := Val.int 12,
    gender := Val.str "F", unitId := Val.int 1, icnarcNumber := Val.int 900,
    cisPatientIdOriginal := Val.int 9, cisEpisodeId := Val.int 1,
    readmission := Val.null }

/-- A one-row table with a non-excluded unit, used to instantiate C3. -/
def combTC3 : List CombRow := [combRC3]

/-- Witness for C3 at a concrete collapser input and output row. -/
theorem c3_excluded_unit_rows_absent_witness :
    combRC3.unitId ≠ Val.int 14 :=
  (c3_excluded_unit_rows_absent.2.2.2.2 combTC3 (by decide)).1 combRC3
    (by decide)

/-! ### Claim C7 -/

/-- C7: `_get_err` returns the sentinel `NA` iff every value of the group
equals the sentinel; otherwise it returns the first non-sentinel value in
group order.  In particular `{NA, NA, duplicate-admission}` reduces to
`duplicate-admission` and an all-`NA` group reduces to `NA`. -/
theorem c7_get_err_sentinel_iff :
    (∀ x : List Val,
      (_get_err x = Val.str "NA" ↔ ∀ v ∈ x, v = Val.str "NA"))
    ∧ (∀ (a : List Val) (v : Val) (b : List Val),
        (∀ w ∈ a, w = Val.str "NA") → v ≠ Val.str "NA" →
        _get_err (a ++ v :: b) = v)
    ∧ _get_err [Val.str "NA", Val.str "NA", Val.str "duplicate-admission"] =
        Val.str "duplicate-admission"
    ∧ _get_err [Val.str "NA", Val.str "NA"] = Val.str "NA" := by
  refine ⟨?_, ?_, by decide, by decide⟩
  · intro x
    constructor
    · intro h
      by_contra hnall
      push_neg at hnall
      obtain ⟨v, hv, hne⟩ := hnall
      have hkeep : pdNe v (Val.str "NA") = true := by
        cases hb : pdNe v (Val.str "NA")
        · exact absurd ((pdNe_NA_false_iff v).mp hb) hne
        · rfl
      have hvmem : v ∈ x.filter (fun w => pdNe w (Val.str "NA")) :=
        List.mem_filter.mpr ⟨hv, hkeep⟩
      unfold _get_err at h
      cases hf : x.filter (fun w => pdNe w (Val.str "NA")) with
      | nil => rw [hf] at hvmem; simp at hvmem
      | cons w rest =>
          rw [hf] at h
          have hwmem : w ∈ x.filter (fun w => pdNe w (Val.str "NA")) := by
            rw [hf]; exact List.mem_cons_self _ _
          have hwkeep := (List.mem_filter.mp hwmem).2
          have hwNA : w = Val.str "NA" := by simpa using h
          rw [hwNA] at hwkeep
          simp [pdNe, pdEq] at hwkeep
    · intro hall
      have hnil : x.filter (fun w => pdNe w (Val.str "NA")) = [] :=
        List.filter_eq_nil_iff.mpr (fun w hw => by
          rw [hall w hw]; simp [pdNe, pdEq])
      unfold _get_err
      rw [hnil]
  · intro a v b ha hv
    have h1 : a.filter (fun w => pdNe w (Val.str "NA")) = [] :=
      List.filter_eq_nil_iff.mpr (fun w hw => by
        rw [ha w hw]; simp [pdNe, pdEq])
    have h2 : pdNe v (Val.str "NA") = true := by
      cases hb : pdNe v (Val.str "NA")
      · exact absurd ((pdNe_NA_false_iff v).mp hb) hv
      · rfl
    unfold _get_err
    rw [List.filter_append, h1, List.nil_append, List.filter_cons, if_pos h2]

/-- Witness for C7: a group with one leading sentinel reduces to its first
non-sentinel value. -/
theorem c7_get_err_sentinel_iff_witness :
    _get_err [Val.str "NA", Val.str "flagged"] = Val.str "flagged" :=
  c7_get_err_sentinel_iff.2.1 [Val.str "NA"] (Val.str "flagged") []
    (by decide) (by decide)

/-! ### Claim C8 -/

/-- C8: an unreadable or malformed input — the XML failing to parse, or
the field dictionary failing to load — makes `parse_icnarc_xml` print one
warning and return the explicitly empty dataframe; it raises nothing and
never returns a partially-populated table. -/
theorem c8_unreadable_input_yields_empty_table :
    ∀ (xml : Except String XmlDoc) (cmp : Except String (List CmpRow)),
      ((∃ e, xml = Except.error e) ∨ (∃ e, cmp = Except.error e)) →
      (parse_icnarc_xml xml cmp).2 = Except.ok ([] : Table)
      ∧ (parse_icnarc_xml xml cmp).1.length = 1 := by
  intro xml cmp h
  cases xml with
  | error e => exact ⟨rfl, rfl⟩
  | ok doc =>
      cases cmp with
      | error e => exact ⟨rfl, rfl⟩
      | ok rows =>
          rcases h with ⟨e, he⟩ | ⟨e, he⟩ <;> simp at he

/-- Witness for C8 at a concrete unreadable XML input. -/
theorem c8_unreadable_input_yields_empty_table_witness :
    (parse_icnarc_xml (Except.error "unreadable") (Except.ok [])).2 =
      Except.ok ([] : Table)
    ∧ (parse_icnarc_xml (Except.error "unreadable") (Except.ok [])).1.length = 1 :=
  c8_unreadable_input_yields_empty_table _ _ (Or.inl ⟨"unreadable", rfl⟩)

/-! ### Claim C6 -/

lemma join_length_le (ww : List CleanedWWRow) :
    ∀ ph : List CleanedPhRow,
      (join_icnarc_to_philips ph ww).length ≤
        phMatched ph ww * wwMatched ph ww := by
  intro ph
  induction ph with
  | nil => simp [join_icnarc_to_philips, phMatched]
  | cons a ph ih =>
      have hlen : (join_icnarc_to_philips (a :: ph) ww).length =
          (ww.filter
            (fun b => decide (b.cisPatientId = Cell.val a.encounterId))).length
          + (join_icnarc_to_philips ph ww).length := by
        unfold join_icnarc_to_philips
        rw [List.map_cons, List.flatten_cons, List.length_append,
          List.length_map]
      have hwwmono : wwMatched ph ww ≤ wwMatched (a :: ph) ww := by
        unfold wwMatched
        refine length_filter_mono _ _ ww ?_
        intro b _ hb
        rw [List.any_cons]
        simp [hb]
      by_cases hany : ww.any
          (fun b => decide (b.cisPatientId = Cell.val a.encounterId)) = true
      · have hflen : (ww.filter
            (fun b => decide (b.cisPatientId = Cell.val a.encounterId))).length
            ≤ wwMatched (a :: ph) ww := by
          unfold wwMatched
          refine length_filter_mono _ _ ww ?_
          intro b _ hb
          rw [List.any_cons]
          simp [hb]
        have hphm : phMatched (a :: ph) ww = phMatched ph ww + 1 := by
          unfold phMatched
          rw [List.filter_cons, if_pos hany]
          simp
        rw [hlen, hphm]
        calc (ww.filter
              (fun b => decide (b.cisPatientId = Cell.val a.encounterId))).length
              + (join_icnarc_to_philips ph ww).length
            ≤ wwMatched (a :: ph) ww + phMatched ph ww * wwMatched ph ww :=
              Nat.add_le_add hflen ih
          _ ≤ wwMatched (a :: ph) ww
              + phMatched ph ww * wwMatched (a :: ph) ww :=
              Nat.add_le_add_left (Nat.mul_le_mul_left _ hwwmono) _
          _ = (phMatched ph ww + 1) * wwMatched (a :: ph) ww := by ring
      · have hfnil : ww.filter
            (fun b => decide (b.cisPatientId = Cell.val a.encounterId)) = [] := by
          rw [List.filter_eq_nil_iff]
          intro b hb hpb
          exact absurd (List.any_eq_true.mpr ⟨b, hb, hpb⟩) hany
        have hphm : phMatched (a :: ph) ww = phMatched ph ww := by
          unfold phMatched
          rw [List.filter_cons, if_neg hany]
        rw [hlen, hfnil, hphm]
        simp only [List.length_nil, Nat.zero_add]
        exact le_trans ih (Nat.mul_le_mul_left _ hwwmono)

/-- C6 (amended): the join is an inner many-to-many merge — every output
row's corrected identifier appears in both inputs, and the row count is
bounded by the PRODUCT of matched row counts (the claimed `min` bound
fails when the key repeats on both sides; it holds when the key is unique
in one input). -/
theorem c6_join_inner_membership_and_bound :
    ∀ (ph : List CleanedPhRow) (ww : List CleanedWWRow),
      (join_icnarc_to_philips ph ww).length ≤ phMatched ph ww * wwMatched ph ww
      ∧ ∀ j ∈ join_icnarc_to_philips ph ww,
          (∃ a ∈ ph, j.ph.encounterId = a.encounterId)
          ∧ ∃ b ∈ ww, b.cisPatientId = Cell.val j.ph.encounterId := by
  intro ph ww
  refine ⟨join_length_le ww ph, ?_⟩
  intro j hj
  unfold join_icnarc_to_philips at hj
  rcases List.mem_flatten.mp hj with ⟨L, hL, hjL⟩
  rcases List.mem_map.mp hL with ⟨a, ha, hfa⟩
  rw [← hfa] at hjL
  rcases List.mem_map.mp hjL with ⟨b, hb, hjb⟩
  have hja : j.ph = a := by rw [← hjb]; rfl
  constructor
  · exact ⟨a, ha, by rw [hja]⟩
  · refine ⟨b, List.mem_of_mem_filter hb, ?_⟩
    have hd := (List.mem_filter.mp hb).2
    rw [hja]
    exact of_decide_eq_true hd

/-- First Philips row with corrected identifier 1. -/
def phC6a : CleanedPhRow :=
  { encounterId_original := Val.int 1, encounterId := Val.int 1,
    ptCensusId := Val.int 11, age := Val.int 40, inTime := Val.int 1,
    outTime := Val.int 2, tNumber := Val.str "A", lengthOfStay := Val.int 10,
    gender := Val.str "F", error_type := Val.str "NA" }

/-- Second Philips row with the same corrected identifier 1. -/
def phC6b : CleanedPhRow :=
  { encounterId_original := Val.int 1, encounterId := Val.int 1,
    ptCensusId := Val.int 12, age := Val.int 41, inTime := Val.int 3,
    outTime := Val.int 4, tNumber := Val.str "B", lengthOfStay := Val.int 20,
    gender := Val.str "M", error_type := Val.str "NA" }

/-- First WW row whose corrected identifier is 1. -/
def wwC6a : CleanedWWRow :=
  { unitId := Val.int 1, icnarcNumber := Val.int 500,
    cisPatientIdOriginal := Val.int 1, cisEpisodeId := Val.int 1,
    readmission := Val.null, key := Val.int 0,
    cisPatientId := Cell.val (Val.int 1) }

/-- Second WW row whose corrected identifier is also 1. -/
def wwC6b : CleanedWWRow :=
  { unitId := Val.int 1, icnarcNumber := Val.int 501,
    cisPatientIdOriginal := Val.int 1, cisEpisodeId := Val.int 2,
    readmission := Val.null, key := Val.int 1,
    cisPatientId := Cell.val (Val.int 1) }

/-- Two Philips rows sharing key 1. -/
def phC6 : List CleanedPhRow := [phC6a, phC6b]

/-- Two WW rows sharing key 1. -/
def wwC6 : List CleanedWWRow := [wwC6a, wwC6b]

/-- C6 counterexample: with the key 1 duplicated on both sides the inner
merge produces 4 rows, exceeding min(matched A, matched B) = min(2,2) = 2,
so the claimed bound is false. -/
theorem c6_join_count_exceeds_min :
    ¬ ((join_icnarc_to_philips phC6 wwC6).length ≤
        min (phMatched phC6 wwC6) (wwMatched phC6 wwC6)) := by
  decide

/-- Witness for the amended C6: the membership conjunct applied to a
concrete joined row. -/
theorem c6_join_inner_membership_and_bound_witness :
    (∃ a ∈ phC6, (mkJoined phC6a wwC6a).ph.encounterId = a.encounterId)
    ∧ ∃ b ∈ wwC6,
        b.cisPatientId = Cell.val (mkJoined phC6a wwC6a).ph.encounterId :=
  (c6_join_inner_membership_and_bound phC6 wwC6).2 (mkJoined phC6a wwC6a)
    (by decide)

/-! ### Claim C5 -/

/-- A two-row table with distinct, non-null keys in descending order. -/
def combT5 : List CombRow :=
  [{ cisPatientId := Val.int 2, ptCensusId := Val.int 20, age := Val.int 60,
     inTime := Val.int 5, outTime := Val.int 6, tNumber := Val.str "T2",
     encounterId_original := Val.int 2, lengthOfStay := Val.int 100,
     gender := Val.str "M", unitId := Val.int 1, icnarcNumber := Val.int 200,
     cisPatientIdOriginal := Val.int 2, cisEpisodeId := Val.int 1,
     readmission := Val.null },
   { cisPatientId := Val.int 1, ptCensusId := Val.int 10, age := Val.int 50,
     inTime := Val.int 3, outTime := Val.int 4, tNumber := Val.str "T1",
     encounterId_original := Val.int 1, lengthOfStay := Val.int 30,
     gender := Val.str "F", unitId := Val.int 1, icnarcNumber := Val.int 100,
     cisPatientIdOriginal := Val.int 1, cisEpisodeId := Val.int 1,
     readmission := Val.null }]

/-- C5 counterexample: a table whose grouping keys are unique is NOT
returned identically by `simple`-mode collapsing — `groupby` sorts the
group keys ascending, so the table with keys `[2, 1]` comes back
reordered. -/
theorem c5_simple_collapse_reorders_rows :
    (combT5.map (fun r => r.cisPatientId)).Nodup
    ∧ combine_non_unique_encounters_simple combT5 ≠ combT5 := by
  decide

/-- C5 (amended): `simple`-mode collapsing is the identity on tables whose
grouping keys are unique, non-null and already sorted ascending, provided
the summed duration column holds (non-null) integers; without the
sortedness the output is the same rows reordered by key, and a null
duration would be summed to 0.  Both the post-join collapser and the
Philips collapser (whose input must carry `error_type`) satisfy it. -/
theorem c5_simple_collapse_identity_on_sorted_unique_keys :
    (∀ t : List CombRow,
        (t.map (fun r => r.cisPatientId)).Pairwise (fun a b => vltB a b = true) →
        (∀ r ∈ t, r.cisPatientId ≠ Val.null) →
        (∀ r ∈ t, ∃ n : Int, r.lengthOfStay = Val.int n) →
        combine_non_unique_encounters_simple t = t)
    ∧ (∀ t : CleanedPhTable,
        t.hasErrorType = true →
        (t.rows.map (fun r => r.encounterId)).Pairwise
          (fun a b => vltB a b = true) →
        (∀ r ∈ t.rows, r.encounterId ≠ Val.null) →
        (∀ r ∈ t.rows, ∃ n : Int, r.lengthOfStay = Val.int n) →
        combine_non_unique_philips_encounters_simple t = Except.ok t.rows) := by
  constructor
  · intro t hs hnn hlos
    unfold combine_non_unique_encounters_simple
    rw [groupKeys_id _ (fun v hv => by
        rcases List.mem_map.mp hv with ⟨r, hr, hre⟩
        rw [← hre]; exact hnn r hr) hs]
    exact comb_map_groups_id t (hs.imp (fun h => vltB_ne h)) hlos
  · intro t het hs hnn hlos
    unfold combine_non_unique_philips_encounters_simple
    rw [if_neg (by simp [het])]
    rw [groupKeys_id _ (fun v hv => by
        rcases List.mem_map.mp hv with ⟨r, hr, hre⟩
        rw [← hre]; exact hnn r hr) hs]
    rw [ph_map_groups_id t.rows (hs.imp (fun h => vltB_ne h)) hlos]

/-- A one-row table (trivially sorted, unique, non-null keys, integer
duration) instantiating the amended C5. -/
def combT5W : List CombRow :=
  [{ cisPatientId := Val.int 1, ptCensusId := Val.int 10, age := Val.int 50,
     inTime := Val.int 3, outTime := Val.int 4, tNumber := Val.str "T1",
     encounterId_original := Val.int 1, lengthOfStay := Val.int 30,
     gender := Val.str "F", unitId := Val.int 1, icnarcNumber := Val.int 100,
     cisPatientIdOriginal := Val.int 1, cisEpisodeId := Val.int 1,
     readmission := Val.null }]

/-- Witness for the amended C5 at a concrete input. -/
theorem c5_simple_collapse_identity_witness :
    combine_non_unique_encounters_simple combT5W = combT5W :=
  c5_simple_collapse_identity_on_sorted_unique_keys.1 combT5W
    (by simp [combT5W])
    (by decide)
    (by intro r hr; simp only [combT5W, List.mem_singleton] at hr; subst hr;
        exact ⟨30, rfl⟩)

/-! ### Claim C9 -/

/-- C9: unit-identifier derivation is total and binary — the `Unit ID`
column added by `convert_unit_numbers` is the cellwise image of the
`ICNARC CMP Number` column under `unit_from_cmp`, which sends `H91` to 1
(GICU) and EVERY other value, the known `B16` as well as unrecognized
codes, to 14 (CICU). -/
theorem c9_unit_mapping_binary :
    (∀ (t out : Table), convert_unit_numbers t = Except.ok out →
        ∃ cmpCol, lookupCol t "ICNARC CMP Number" = some cmpCol
          ∧ lookupCol out "Unit ID" = some (cmpCol.map unit_from_cmp))
    ∧ (∀ v : Val, v ≠ Val.str "H91" → unit_from_cmp v = Val.int 14)
    ∧ unit_from_cmp (Val.str "H91") = Val.int 1
    ∧ unit_from_cmp (Val.str "B16") = Val.int 14
    ∧ unit_from_cmp (Val.str "X99") = Val.int 14 := by
  refine ⟨?_, ?_, by decide, by decide, by decide⟩
  · intro t out h
    unfold convert_unit_numbers at h
    split at h
    · simp at h
    · rename_i cmpCol h1
      split at h
      · simp at h
      · rename_i numCol h2
        split at h
        · simp at h
        · rename_i nums h3
          simp only [Except.ok.injEq] at h
          subst h
          refine ⟨cmpCol, lookupCol_of_getColE h1, ?_⟩
          rw [lookupCol_dropCol_ne _ (by decide),
            lookupCol_setCol_ne _ _ (by decide),
            lookupCol_setCol_self]
  · intro v hv
    unfold unit_from_cmp
    rw [if_neg hv]

/-- A two-row extractor table with both known unit codes. -/
def tblC9 : Table :=
  [("ICNARC CMP Number", [Val.str "H91", Val.str "B16"]),
   ("ICNARC Number", [Val.int 7, Val.int 8])]

/-- The table `convert_unit_numbers` produces from `tblC9`. -/
def outC9 : Table :=
  [("ICNARC CMP Number", [Val.str "H91", Val.str "B16"]),
   ("Unit ID", [Val.int 1, Val.int 14]),
   ("ICNARC number", [Val.int 7, Val.int 8])]

/-- Witness for C9 at a concrete table. -/
theorem c9_unit_mapping_binary_witness :
    ∃ cmpCol, lookupCol tblC9 "ICNARC CMP Number" = some cmpCol
      ∧ lookupCol outC9 "Unit ID" = some (cmpCol.map unit_from_cmp) :=
  c9_unit_mapping_binary.1 tblC9 outC9 rfl

/-! ### Claim C10 -/

/-- C10: both modes of the Philips collapser name `error_type` in their
aggregation dictionaries, so on any input frame lacking that column they
raise a `KeyError` instead of returning a table; since
`clean_philips_encounterids` adds the column exactly when
`log_error_type` is set (conjunct 2) and the flag defaults to `False`,
the collapser cannot be applied to the corrector's default output
(conjunct 3). -/
theorem c10_philips_collapser_requires_error_type :
    (∀ t : CleanedPhTable, t.hasErrorType = false →
        combine_non_unique_philips_encounters_simple t =
          Except.error "KeyError: column error_type does not exist"
        ∧ combine_non_unique_philips_encounters_concat t =
          Except.error "KeyError: column error_type does not exist")
    ∧ (∀ (data : List PhRow) (errs : List PhErrRow) (log : Bool)
        (t : CleanedPhTable),
        clean_philips_encounterids data errs log = Except.ok t →
        t.hasErrorType = log)
    ∧ (∀ (data : List PhRow) (errs : List PhErrRow) (t : CleanedPhTable),
        clean_philips_encounterids data errs false = Except.ok t →
        (∃ e, combine_non_unique_philips_encounters_simple t = Except.error e)
        ∧ ∃ e, combine_non_unique_philips_encounters_concat t =
            Except.error e) := by
  have hflag : ∀ (data : List PhRow) (errs : List PhErrRow) (log : Bool)
      (t : CleanedPhTable),
      clean_philips_encounterids data errs log = Except.ok t →
      t.hasErrorType = log := by
    intro data errs log t h
    unfold clean_philips_encounterids at h
    cases hm : exceptMap (philipsMerged data errs) philipsFinalizeRow with
    | error e => rw [hm] at h; exact absurd h (by simp)
    | ok rows =>
        rw [hm] at h
        simp only [Except.ok.injEq] at h
        subst h
        rfl
  have hkey : ∀ t : CleanedPhTable, t.hasErrorType = false →
      combine_non_unique_philips_encounters_simple t =
        Except.error "KeyError: column error_type does not exist"
      ∧ combine_non_unique_philips_encounters_concat t =
        Except.error "KeyError: column error_type does not exist" := by
    intro t h
    constructor
    · unfold combine_non_unique_philips_encounters_simple
      rw [if_pos h]
    · unfold combine_non_unique_philips_encounters_concat
      rw [if_pos h]
  refine ⟨hkey, hflag, ?_⟩
  intro data errs t h
  have hfalse := hflag data errs false t h
  exact ⟨⟨_, (hkey t hfalse).1⟩, ⟨_, (hkey t hfalse).2⟩⟩

/-- Witness for C10: the default-flag output of the corrector on a
concrete extract is rejected by the collapser. -/
theorem c10_philips_collapser_requires_error_type_witness :
    (∃ e, combine_non_unique_philips_encounters_simple phOutC2 =
        Except.error e)
    ∧ ∃ e, combine_non_unique_philips_encounters_concat phOutC2 =
        Except.error e :=
  c10_philips_collapser_requires_error_type.2.2 phDataC2 [] phOutC2 rfl
